import Mathlib

set_option maxHeartbeats 1000000

/-!
Verification development for the aimath-helper repository.

The Python sources are shallowly embedded as Lean definitions:

* dictionaries with optional keys become structures with `Option` fields
  (a `.get(key, default)` access becomes `Option.getD`);
* Python lists become `List`; machine integers become `Int`/`Nat`;
* the float arithmetic in `convert_coords_to_original` is modelled with
  exact rationals (`Rat`), with Python `int()` truncation toward zero;
* `random.sample(pop, k)` is modelled by an abstract sampler parameter
  together with the predicate `IsSampler`, which captures exactly what
  `random.sample` guarantees: the draw has length `k` and is a
  permutation of a sublist of the population (distinct positions,
  without replacement).
-/

/-- A knowledge point record `{outline, detail}` (`src/question/model.py`,
`KnowledgePoint` dataclass; also the dict shape used in grading results). -/
structure KnowledgePoint where
  outline : String
  detail : String
  deriving DecidableEq

/-- A choice option of a choice question (`src/question/model.py`, `Choice`). -/
structure QChoice where
  id : String
  content : String
  is_correct : Bool
  explanation : String
  deriving DecidableEq

/-- One solution step of a calculation question (`src/question/model.py`,
`SolutionStep`). -/
structure SolutionStep where
  step : String
  deriving DecidableEq

/-- A question record (`src/question/model.py`, `Question` dataclass).
Equality is structural, matching Python dataclass `==`. -/
structure Question where
  id : String
  type : String
  question : String
  knowledge_points : List KnowledgePoint
  choices : Option (List QChoice) := none
  solution_steps : Option (List SolutionStep) := none
  deriving DecidableEq

/-- A grading-result dict as consumed by `_is_question_correct` and
`analyze_error_knowledge_points`.  The correctness fields are `Option`
because the Python code reads them with `.get(..., default)`; the
remaining fields are read with a constant default, so a missing key is
observationally the default value and is modelled by it. -/
structure GradingResult where
  question_type : String
  is_correct : Option Bool
  overall_correct : Option Bool
  knowledge_points : List KnowledgePoint
  explanation : String
  deriving DecidableEq

/-- The predicate `_is_question_correct` of `src/main_layout.py`
(lines 863-873): dispatch on `question_type`, reading `is_correct` for
choice questions, `overall_correct` for calculation questions, and
`is_correct` again in the default branch, each defaulting to `False`
when the key is absent. -/
def is_question_correct (r : GradingResult) : Bool :=
  if r.question_type = "choice" then r.is_correct.getD false
  else if r.question_type = "calculation" then r.overall_correct.getD false
  else r.is_correct.getD false

/-- The predicate `_is_question_incorrect` of `src/main_layout.py`
(lines 606-616), also inlined in `analyze_error_knowledge_points` of
`src/ai.py`: the same dispatch, but each field is read with
`.get(..., True)`, so an ABSENT correctness field makes the result count
as correct (not incorrect). -/
def is_question_incorrect (r : GradingResult) : Bool :=
  if r.question_type = "choice" then !(r.is_correct.getD true)
  else if r.question_type = "calculation" then !(r.overall_correct.getD true)
  else !(r.is_correct.getD true)

/-- Python `int()` applied to an exact rational: truncation toward zero. -/
def pyTrunc (q : ℚ) : ℤ := if 0 ≤ q then ⌊q⌋ else -⌊-q⌋

/-- Python 3 `round()` applied to an exact rational: round half to even. -/
def pyRound (q : ℚ) : ℤ :=
  let f := ⌊q⌋
  if q - f < 1 / 2 then f
  else if (1 : ℚ) / 2 < q - f then f + 1
  else if f % 2 = 0 then f else f + 1

/-- `convert_coords_to_original` of `src/ai.py` (lines 827-870): if the
bbox has length 4 and both sizes have length 2, rescale each coordinate
by `original/resized` and truncate with `int()`; otherwise return the
bbox unchanged.  Matching on the exact list shapes is the length test. -/
def convert_coords_to_original (bbox original_size resized_size : List ℤ) : List ℤ :=
  match bbox, original_size, resized_size with
  | [x1, y1, x2, y2], [ow, oh], [rw, rh] =>
      let sx : ℚ := (ow : ℚ) / (rw : ℚ)
      let sy : ℚ := (oh : ℚ) / (rh : ℚ)
      [pyTrunc (x1 * sx), pyTrunc (y1 * sy), pyTrunc (x2 * sx), pyTrunc (y2 * sy)]
  | _, _, _ => bbox

/-- Modelled from the spec: the same conversion as
`convert_coords_to_original` but with `round()` in place of `int()`, as
the spec sentence for the conversion states.  Used only to compare the
spec's wording against the code. -/
def convert_coords_to_original_rounded (bbox original_size resized_size : List ℤ) : List ℤ :=
  match bbox, original_size, resized_size with
  | [x1, y1, x2, y2], [ow, oh], [rw, rh] =>
      let sx : ℚ := (ow : ℚ) / (rw : ℚ)
      let sy : ℚ := (oh : ℚ) / (rh : ℚ)
      [pyRound (x1 * sx), pyRound (y1 * sy), pyRound (x2 * sx), pyRound (y2 * sy)]
  | _, _, _ => bbox

/-- Per-outline accumulator entry used by `analyze_error_knowledge_points`
(`src/ai.py` lines 265-312): the value stored under one `outline` key of
the `knowledge_point_errors` dict. -/
structure ErrAcc where
  error_count : Nat
  error_examples : List String
  deriving DecidableEq

/-- The body of the per-knowledge-point update in
`analyze_error_knowledge_points`: increment `error_count`, then append
the explanation to `error_examples` when it is non-empty and not
already recorded.  (The 3-example cap is applied later, at output.) -/
def bumpErr (e : ErrAcc) (explanation : String) : ErrAcc :=
  let e' : ErrAcc := { e with error_count := e.error_count + 1 }
  if explanation ≠ "" ∧ explanation ∉ e'.error_examples then
    { e' with error_examples := e'.error_examples ++ [explanation] }
  else e'

/-- The Python dict `knowledge_point_errors` is modelled as an
association list in insertion order: updating an existing key keeps its
position, a new key is appended — exactly Python dict semantics for the
operations the code performs. -/
def updateErrMap (acc : List (String × ErrAcc)) (o : String) (explanation : String) :
    List (String × ErrAcc) :=
  match acc with
  | [] => [(o, bumpErr ⟨0, []⟩ explanation)]
  | (k, v) :: rest =>
      if k = o then (k, bumpErr v explanation) :: rest
      else (k, v) :: updateErrMap rest o explanation

/-- Association-list lookup for the error map (first entry with the key). -/
def errLookup (o : String) : List (String × ErrAcc) → Option ErrAcc
  | [] => none
  | (k, v) :: rest => if k = o then some v else errLookup o rest

/-- Processing of one grading result inside
`analyze_error_knowledge_points`: when the result is judged incorrect
(absent correctness fields defaulting to True, i.e. correct), fold its
knowledge points into the error map, skipping empty outlines.  All
knowledge-point entries are modelled as records, so Python's
`isinstance(kp, dict)` test is always true here. -/
def errStep (acc : List (String × ErrAcc)) (r : GradingResult) : List (String × ErrAcc) :=
  if is_question_incorrect r then
    r.knowledge_points.foldl
      (fun a kp => if kp.outline ≠ "" then updateErrMap a kp.outline r.explanation else a) acc
  else acc

/-- The fully accumulated `knowledge_point_errors` dict of
`analyze_error_knowledge_points`. -/
def knowledge_point_errors (results : List GradingResult) : List (String × ErrAcc) :=
  results.foldl errStep []

/-- An output entry of `analyze_error_knowledge_points`. -/
structure ErrorStat where
  outline : String
  detail : String
  error_count : Nat
  error_examples : List String
  deriving DecidableEq

/-- The detail lookup loop inside `analyze_error_knowledge_points`:
first catalog entry whose `outline` matches, else the empty string.
The catalog is `knowledge_base.get_all_knowledge_points()`; it is a
parameter here. -/
def lookup_detail (catalog : List KnowledgePoint) (o : String) : String :=
  match catalog.find? (fun kp => kp.outline == o) with
  | some kp => kp.detail
  | none => ""

/-- The unsorted `error_knowledge_points` list as built by
`analyze_error_knowledge_points` before sorting: map entries in
insertion (first-encounter) order, with the canonical detail looked up
and the examples capped at 3. -/
def error_stats_unsorted (catalog : List KnowledgePoint) (results : List GradingResult) :
    List ErrorStat :=
  (knowledge_point_errors results).map fun p =>
    { outline := p.1, detail := lookup_detail catalog p.1,
      error_count := p.2.error_count, error_examples := p.2.error_examples.take 3 }

/-- The comparison used to model
`error_knowledge_points.sort(key=lambda x: x["error_count"], reverse=True)`:
Python `list.sort` is a stable sort, and with `reverse=True` an element
precedes another when its key is at least as large; `List.mergeSort`
with this comparison is stable and sorted in exactly that sense, hence
extensionally equal to the Python sort. -/
def descByCount (a b : ErrorStat) : Bool := decide (b.error_count ≤ a.error_count)

/-- `analyze_error_knowledge_points` of `src/ai.py` (lines 265-345),
returning the pair `(error_knowledge_points, top_error_points)`. -/
def analyze_error_knowledge_points (catalog : List KnowledgePoint)
    (results : List GradingResult) : List ErrorStat × List ErrorStat :=
  let m := knowledge_point_errors results
  if m.isEmpty then ([], [])
  else
    let sorted := (error_stats_unsorted catalog results).mergeSort descByCount
    (sorted, sorted.take 2)

/-- The first-encounter order of outlines: the order in which non-empty
outlines of results judged incorrect are first seen while traversing
the input.  Used to state the tie-breaking order of the sort. -/
def encounterStep (acc : List String) (r : GradingResult) : List String :=
  if is_question_incorrect r then
    r.knowledge_points.foldl
      (fun a kp => if kp.outline ≠ "" ∧ kp.outline ∉ a then a ++ [kp.outline] else a) acc
  else acc

/-- First-encounter order of error outlines over a whole result list. -/
def first_encounter_outlines (results : List GradingResult) : List String :=
  results.foldl encounterStep []

/-- The number of occurrences of outline `o` across the
`knowledge_points` lists of the results judged incorrect (the code's
own incorrectness test, with absent fields defaulting to correct).
This is the reference value for the per-outline `error_count`. -/
def outline_error_count (results : List GradingResult) (o : String) : Nat :=
  (results.map fun r =>
    if is_question_incorrect r then
      (r.knowledge_points.filter (fun kp => kp.outline == o)).length
    else 0).sum

/-- The `error_count` stored for outline `o`, 0 when absent. -/
def errCountAt (acc : List (String × ErrAcc)) (o : String) : Nat :=
  match errLookup o acc with
  | some v => v.error_count
  | none => 0

/-- Every entry of the error map has a positive count (each insertion
starts from a bump of the zero accumulator). -/
def GoodMap (acc : List (String × ErrAcc)) : Prop :=
  ∀ o v, errLookup o acc = some v → 0 < v.error_count

/-- Concrete grading result for witnesses: a choice result answered
correctly. -/
def grChoiceRight : GradingResult :=
  { question_type := "choice", is_correct := some true,
    overall_correct := none, knowledge_points := [], explanation := "" }

/-- Concrete grading result used as a witness input: a calculation
result carrying `is_correct=True` but no `overall_correct` key. -/
def grCalcMissingOverall : GradingResult :=
  { question_type := "calculation", is_correct := some true,
    overall_correct := none, knowledge_points := [], explanation := "" }

/-- Concrete grading result for the C2 counterexample: a calculation
result with no `overall_correct` key at all, carrying one knowledge
point. -/
def grCalcNoVerdict : GradingResult :=
  { question_type := "calculation", is_correct := none,
    overall_correct := none, knowledge_points := [⟨"X", ""⟩], explanation := "e" }

/-- Concrete grading result for witnesses: an incorrect choice result
listing the same outline twice. -/
def grChoiceWrongTwice : GradingResult :=
  { question_type := "choice", is_correct := some false,
    overall_correct := none,
    knowledge_points := [⟨"X", ""⟩, ⟨"X", ""⟩], explanation := "a" }

/-- `get_questions_by_knowledge_points` of `src/question/bank.py`
(lines 101-111): a question is included (once) when any of its
knowledge points has an `outline` that is literally a member of
`names`; the inner loop breaks at the first match, which is `List.any`.
The bank list is the `self.questions` of the `QuestionBank` instance,
passed explicitly here. -/
def get_questions_by_knowledge_points (bank : List Question) (names : List String) :
    List Question :=
  bank.filter (fun q => q.knowledge_points.any (fun kp => names.contains kp.outline))

/-- Infix (substring) test on character lists. -/
def listInfix (pat : List Char) : List Char → Bool
  | [] => pat.isEmpty
  | c :: t => pat.isPrefixOf (c :: t) || listInfix pat t

/-- Substring containment on strings. -/
def strContains (s pat : String) : Bool := listInfix pat.toList s.toList

/-- Modelled from the spec: the looser, secondary matching criterion
the spec describes for `get_questions_by_knowledge_points` — two names
match when (after normalization) they share a topical keyword cluster,
instantiated at the clusters the spec itself names: both containing
"加法", or both containing "运算", or both containing "法则".
Containment of these keywords is invariant under the suffix-particle
stripping the spec mentions, so this is implied by the spec's
criterion. -/
def sharesTopicalKeyword (a b : String) : Bool :=
  (strContains a "加法" && strContains b "加法") ||
  (strContains a "运算" && strContains b "运算") ||
  (strContains a "法则" && strContains b "法则")

/-- Modelled from the spec: inclusion by exact-or-fuzzy matching as the
spec states for `get_questions_by_knowledge_points`. -/
def get_questions_by_knowledge_points_loose (bank : List Question) (names : List String) :
    List Question :=
  bank.filter (fun q => q.knowledge_points.any (fun kp =>
    names.any (fun n => kp.outline == n || sharesTopicalKeyword kp.outline n)))

/-- What `random.sample(pop, k)` guarantees when `0 ≤ k ≤ len(pop)`:
the draw has length `k` and consists of elements taken at `k` distinct
positions of `pop`, i.e. it is a permutation of a sublist of `pop`. -/
def IsSample (pop s : List Question) (k : Nat) : Prop :=
  s.length = k ∧ s.Subperm pop

/-- A sampler function standing in for `random.sample`; every draw the
code performs satisfies `k ≤ pop.length`, so only that case is
constrained. -/
def IsSampler (sample : List Question → Nat → List Question) : Prop :=
  ∀ pop k, k ≤ pop.length → IsSample pop (sample pop k) k

/-- The local `matching_choice_questions` of
`get_random_questions_by_knowledge_points` (`src/question/bank.py`
lines 113-185). -/
def matchingChoice (bank : List Question) (names : List String) : List Question :=
  (get_questions_by_knowledge_points bank names).filter (fun q => q.type == "choice")

/-- The local `matching_calculation_questions`. -/
def matchingCalc (bank : List Question) (names : List String) : List Question :=
  (get_questions_by_knowledge_points bank names).filter
    (fun q => q.type == "calculation")

/-- The local `all_choice_questions`. -/
def allChoice (bank : List Question) : List Question :=
  bank.filter (fun q => q.type == "choice")

/-- The local `all_calculation_questions`. -/
def allCalc (bank : List Question) : List Question :=
  bank.filter (fun q => q.type == "calculation")

/-- The first draw (`selected_choices`): matching choice questions,
`min(choice_count, len)` of them, skipped when there are none. -/
def selChoice1 (sample : List Question → Nat → List Question)
    (bank : List Question) (names : List String) (choice_count : Nat) : List Question :=
  if (matchingChoice bank names).isEmpty then []
  else sample (matchingChoice bank names)
    (min choice_count (matchingChoice bank names).length)

/-- The backfill draw for choice questions (`additional_choices`):
from all choice questions not already selected (Python `not in`,
structural equality), up to the remaining need. -/
def selChoice2 (sample : List Question → Nat → List Question)
    (bank : List Question) (names : List String) (choice_count : Nat) : List Question :=
  let s1 := selChoice1 sample bank names choice_count
  let rem := choice_count - s1.length
  if 0 < rem then
    let avail := (allChoice bank).filter (fun q => decide (q ∉ s1))
    if avail.isEmpty then [] else sample avail (min rem avail.length)
  else []

/-- The draw of matching calculation questions (`selected_calculations`). -/
def selCalc1 (sample : List Question → Nat → List Question)
    (bank : List Question) (names : List String) (calculation_count : Nat) :
    List Question :=
  if (matchingCalc bank names).isEmpty then []
  else sample (matchingCalc bank names)
    (min calculation_count (matchingCalc bank names).length)

/-- The `selected_questions` list just before the calculation backfill. -/
def selBeforeCalcFill (sample : List Question → Nat → List Question)
    (bank : List Question) (names : List String)
    (choice_count calculation_count : Nat) : List Question :=
  selChoice1 sample bank names choice_count ++
    selChoice2 sample bank names choice_count ++
    selCalc1 sample bank names calculation_count

/-- The backfill draw for calculation questions
(`additional_calculations`): the remaining need counts only the
calculation-type entries of `selected_questions`. -/
def selCalc2 (sample : List Question → Nat → List Question)
    (bank : List Question) (names : List String)
    (choice_count calculation_count : Nat) : List Question :=
  let sel := selBeforeCalcFill sample bank names choice_count calculation_count
  let rem := calculation_count - (sel.filter (fun q => q.type == "calculation")).length
  if 0 < rem then
    let avail := (allCalc bank).filter (fun q => decide (q ∉ sel))
    if avail.isEmpty then [] else sample avail (min rem avail.length)
  else []

/-- `get_random_questions_by_knowledge_points` of `src/question/bank.py`
(lines 113-185): the concatenation of the four draws in program order.
The local variables of the Python function are the definitions above. -/
def get_random_questions_by_knowledge_points
    (sample : List Question → Nat → List Question)
    (bank : List Question) (names : List String)
    (choice_count calculation_count : Nat) : List Question :=
  selBeforeCalcFill sample bank names choice_count calculation_count ++
    selCalc2 sample bank names choice_count calculation_count

/-- A deterministic sampler (the first `k` elements) used by witnesses. -/
def takeSampler : List Question → Nat → List Question := fun pop k => pop.take k

/-- Concrete questions and bank for witnesses. -/
def qc1 : Question :=
  { id := "1", type := "choice", question := "q1", knowledge_points := [⟨"A", ""⟩] }

/-- Second concrete choice question. -/
def qc2 : Question :=
  { id := "2", type := "choice", question := "q2", knowledge_points := [⟨"B", ""⟩] }

/-- Concrete calculation question. -/
def qk1 : Question :=
  { id := "3", type := "calculation", question := "q3",
    knowledge_points := [⟨"A", ""⟩] }

/-- Concrete question bank used by witnesses. -/
def bankEx : List Question := [qc1, qc2, qk1]

/-- Concrete question for the C5 counterexample: its only outline is
"有理数加法法则". -/
def qAdd : Question :=
  { id := "9", type := "choice", question := "qa",
    knowledge_points := [⟨"有理数加法法则", ""⟩] }

/-- ASCII decimal digit test (Python `\\d`; the bank's numerals are
ASCII). -/
def isDigitCh (c : Char) : Bool := '0' ≤ c && c ≤ '9'

/-- Python `\\s` whitespace test. -/
def isSpaceCh (c : Char) : Bool :=
  c == ' ' || c == '\t' || c == '\n' || c == '\r' || c == '\x0b' || c == '\x0c'

/-- One attempt of the pattern `=?\\s*([+-]?\\d+(?:\\.\\d+)?)` at a fixed
start position (the argument is the suffix starting there); returns
capture group 1 on success.  The regex engine's greedy matching with
backtracking is deterministic for this pattern, because after each
optional/starred piece the continuation requires a character of a class
disjoint from the piece's class, so no backtracking alternative can
succeed where the greedy choice fails. -/
def matchNumeralAt (cs : List Char) : Option String :=
  let cs1 := match cs with
    | '=' :: t => t
    | _ => cs
  let cs2 := cs1.dropWhile isSpaceCh
  let sign : List Char := match cs2 with
    | '+' :: _ => ['+']
    | '-' :: _ => ['-']
    | _ => []
  let cs3 := cs2.drop sign.length
  let ds := cs3.takeWhile isDigitCh
  if ds.isEmpty then none
  else
    let rest := cs3.drop ds.length
    let frac : List Char :=
      match rest with
      | '.' :: t =>
          let fs := t.takeWhile isDigitCh
          if fs.isEmpty then [] else '.' :: fs
      | _ => []
    some (String.mk (sign ++ ds ++ frac))

/-- `re.search` semantics for the pattern: try each start position from
the left, return the first successful attempt's capture group. -/
def searchNumeral : List Char → Option String
  | [] => none
  | c :: rest =>
      match matchNumeralAt (c :: rest) with
      | some g => some g
      | none => searchNumeral rest

/-- Modelled from the spec: the TRAILING numeral of a text — the
pattern's match at the rightmost start position where it succeeds.
Used only to compare the spec's wording ("trailing signed numeral")
against the code's leftmost-match behavior. -/
def searchNumeralLast : List Char → Option String
  | [] => none
  | c :: rest =>
      match searchNumeralLast rest with
      | some g => some g
      | none => matchNumeralAt (c :: rest)

/-- The dict built for one question inside `practice_to_dict`
(`src/practice/practice.py` lines 112-157).  Keys that are only
conditionally written are `Option` fields (absent = `none`); the
`metadata` key only copies the section type and is omitted. -/
structure QuestionDict where
  id : String
  type : String
  question : String
  knowledge_points : List KnowledgePoint
  choices : Option (List QChoice)
  answer : Option String
  solution_steps : Option (List SolutionStep)
  deriving DecidableEq

/-- The body of the per-question loop of `practice_to_dict`: project
the question, add `choices` and the correct choice id when the question
has a non-empty choice list, add `solution_steps` when non-empty, and
for calculation questions overwrite `answer` with the first match of
`=?\\s*([+-]?\\d+(?:\\.\\d+)?)` in the last step (empty string when no
match). -/
def build_question_dict (q : Question) : QuestionDict :=
  let base : QuestionDict :=
    { id := q.id, type := q.type, question := q.question,
      knowledge_points := q.knowledge_points, choices := none,
      answer := none, solution_steps := none }
  let withChoices : QuestionDict :=
    match q.choices with
    | some cs =>
        if cs.isEmpty then base
        else
          { base with
            choices := some cs,
            answer := some (((cs.find? (fun c => c.is_correct)).map QChoice.id).getD "") }
    | none => base
  match q.solution_steps with
  | some steps =>
      if steps.isEmpty then withChoices
      else
        let withSteps : QuestionDict := { withChoices with solution_steps := some steps }
        if q.type = "calculation" then
          { withSteps with
            answer := some ((searchNumeral (steps.getLast?.getD ⟨""⟩).step.toList).getD "") }
        else withSteps
  | none => withChoices

/-- Concrete calculation question whose last (only) solution step is
"1+2=3". -/
def qCalcEx : Question :=
  { id := "c", type := "calculation", question := "1+2",
    knowledge_points := [], solution_steps := some [⟨"1+2=3"⟩] }

/-- A detected question-area dict.  Keys that the code reads only via
`.get(key, constant_default)` are plain fields (a missing key is
observationally the default value); keys whose PRESENCE is tested
(`in`, or truthiness of the value) are `Option` fields. -/
structure Area where
  question_number : String
  question_type : String
  bbox_2d : Option (List ℤ) := none
  answer_bbox_2d : Option (List ℤ) := none
  confidence : ℚ := 1 / 2
  original_size : Option (List ℤ) := none
  resized_size : Option (List ℤ) := none
  deriving DecidableEq

/-- The `positions` record written onto a question by
`save_question_positions_to_sections`. -/
structure QPositions where
  bbox_2d : List ℤ
  answer_bbox_2d : List ℤ
  confidence : ℚ
  deriving DecidableEq

/-- The record built from one area (`.get` with defaults). -/
def posOfArea (a : Area) : QPositions :=
  { bbox_2d := a.bbox_2d.getD [0, 0, 0, 0],
    answer_bbox_2d := a.answer_bbox_2d.getD [0, 0, 0, 0],
    confidence := a.confidence }

/-- A question entry of a parsed student answer; `data` stands for the
remaining keys of the dict, which the code never touches. -/
structure SAQuestion where
  data : String
  positions : Option QPositions := none
  deriving DecidableEq

/-- A section of a parsed student answer. -/
structure AnswerSection where
  type : String
  questions : List SAQuestion
  deriving DecidableEq

/-- A parsed student answer sheet. -/
structure StudentAnswer where
  sections : List AnswerSection
  deriving DecidableEq

/-- The sequential assignment over one section's questions: thread
`position_index`, assigning `areas[position_index]` and incrementing
only while in range (the code's `if position_index < len(...)`). -/
def assignSeqQs (areas : List Area) : Nat → List SAQuestion → List SAQuestion × Nat
  | idx, [] => ([], idx)
  | idx, q :: rest =>
      if h : idx < areas.length then
        let r := assignSeqQs areas (idx + 1) rest
        ({ q with positions := some (posOfArea (areas.get ⟨idx, h⟩)) } :: r.1, r.2)
      else
        let r := assignSeqQs areas idx rest
        (q :: r.1, r.2)

/-- The sequential assignment over all sections, threading the index. -/
def assignSeqSections (areas : List Area) : Nat → List AnswerSection → List AnswerSection × Nat
  | idx, [] => ([], idx)
  | idx, s :: rest =>
      let r1 := assignSeqQs areas idx s.questions
      let r2 := assignSeqSections areas r1.2 rest
      ({ s with questions := r1.1 } :: r2.1, r2.2)

/-- The `positions_by_type_and_number` dict of the fallback path,
flattened to insertion order: the two-level Python dict observes only
(a) membership of a type and (b) the LAST value written under a
`(type, number)` key, both preserved by this flat list. -/
def posKeyTable (areas : List Area) : List ((String × String) × QPositions) :=
  areas.map (fun a => ((a.question_type, a.question_number), posOfArea a))

/-- Lookup of a `(type, number)` key: last write wins. -/
def tableLookupLast (tbl : List ((String × String) × QPositions))
    (k : String × String) : Option QPositions :=
  ((tbl.filter (fun e => e.1 == k)).getLast?).map Prod.snd

/-- Membership test of a type in the outer dict. -/
def tableHasType (tbl : List ((String × String) × QPositions)) (t : String) : Bool :=
  tbl.any (fun e => e.1.1 == t)

/-- The fallback assignment over one section's questions (`enumerate`,
`question_number = str(i+1)`). -/
def fbQuestions (tbl : List ((String × String) × QPositions)) (t : String) :
    Nat → List SAQuestion → List SAQuestion
  | _, [] => []
  | i, q :: rest =>
      let q' :=
        if tableHasType tbl t then
          match tableLookupLast tbl (t, toString (i + 1)) with
          | some p => { q with positions := some p }
          | none => q
        else q
      q' :: fbQuestions tbl t (i + 1) rest

/-- The fallback assignment over all sections. -/
def fbSections (tbl : List ((String × String) × QPositions))
    (secs : List AnswerSection) : List AnswerSection :=
  secs.map (fun s => { s with questions := fbQuestions tbl s.type 0 s.questions })

/-- The total question count across sections, in section order. -/
def totalQuestions (secs : List AnswerSection) : Nat :=
  (secs.map (fun s => s.questions.length)).sum

/-- `save_question_positions_to_sections` of `src/ai.py`
(lines 1028-1112), for one student answer: sequential assignment when
the detected-area count equals the total question count, otherwise the
type-and-number fallback. -/
def savePositionsOne (areas : List Area) (sa : StudentAnswer) : StudentAnswer :=
  if areas.length = totalQuestions sa.sections then
    { sa with sections := (assignSeqSections areas 0 sa.sections).1 }
  else
    { sa with sections := fbSections (posKeyTable areas) sa.sections }

/-- `save_question_positions_to_sections` over the student-answer list. -/
def save_question_positions_to_sections (areas : List Area)
    (answers : List StudentAnswer) : List StudentAnswer :=
  answers.map (savePositionsOne areas)

/-- The flattened ordinal of question `j` of section `s`. -/
def flatIndex (secs : List AnswerSection) (s j : Nat) : Nat :=
  ((secs.take s).map (fun sec => sec.questions.length)).sum + j

/-- The number of questions of type `t` in sections before section `s`. -/
def countTypeBefore (secs : List AnswerSection) (s : Nat) (t : String) : Nat :=
  ((((secs.take s).filter (fun sec => sec.type == t)).map
    (fun sec => sec.questions.length))).sum

/-- Modelled from the spec: the fallback match as the claim states it,
keyed by `(question_type, 1-based position within its TYPE)` — the
position of a question counts the questions of same-typed earlier
sections, not only its own section. -/
def fallbackSpecSections (areas : List Area) (secs : List AnswerSection) :
    List AnswerSection :=
  secs.mapIdx (fun s sec =>
    { sec with questions := sec.questions.mapIdx (fun j q =>
        match tableLookupLast (posKeyTable areas)
            (sec.type, toString (countTypeBefore secs s sec.type + j + 1)) with
        | some p => { q with positions := some p }
        | none => q) })

/-- Concrete detected area for the C7 counterexample. -/
def aCh : Area :=
  { question_number := "1", question_type := "choice", bbox_2d := some [1, 2, 3, 4] }

/-- Concrete student answer with two same-typed sections of one
question each. -/
def saTwoChoiceSections : StudentAnswer :=
  { sections := [⟨"choice", [⟨"d0", none⟩]⟩, ⟨"choice", [⟨"d1", none⟩]⟩] }

/-- Concrete student answer for the sequential-path witness: one choice
section and one calculation section, two questions each. -/
def saFourQuestions : StudentAnswer :=
  { sections := [⟨"choice", [⟨"q1", none⟩, ⟨"q2", none⟩]⟩,
                 ⟨"calculation", [⟨"q3", none⟩, ⟨"q4", none⟩]⟩] }

/-- Four concrete detected areas for the sequential-path witness. -/
def areasFour : List Area :=
  [{ question_number := "1", question_type := "choice", bbox_2d := some [0, 0, 1, 1] },
   { question_number := "2", question_type := "choice", bbox_2d := some [0, 1, 1, 2] },
   { question_number := "1", question_type := "calculation", bbox_2d := some [0, 2, 1, 3] },
   { question_number := "2", question_type := "calculation", bbox_2d := some [0, 3, 1, 4] }]

/-- Truthiness of the size metadata (`if original_size and
resized_size:`): present and non-empty. -/
def truthySize : Option (List ℤ) → Option (List ℤ)
  | some l => if l.isEmpty then none else some l
  | none => none

/-- The per-area body of `convert_question_areas_to_original`
(`src/ai.py` lines 872-910): when both sizes are present and truthy,
convert whichever of `bbox_2d`/`answer_bbox_2d` is present; otherwise
copy the area unchanged. -/
def convertAreaOne (a : Area) : Area :=
  match truthySize a.original_size, truthySize a.resized_size with
  | some osz, some rsz =>
      let a1 := match a.bbox_2d with
        | some b => { a with bbox_2d := some (convert_coords_to_original b osz rsz) }
        | none => a
      (match a1.answer_bbox_2d with
        | some b =>
            { a1 with answer_bbox_2d := some (convert_coords_to_original b osz rsz) }
        | none => a1)
  | _, _ => a

/-- `convert_question_areas_to_original`: per-area conversion mapped
over the list. -/
def convert_question_areas_to_original (areas : List Area) : List Area :=
  areas.map convertAreaOne

/-- The `needs_conversion` decision of
`get_question_positions_for_grading` (`src/ai.py` lines 947-988): both
size keys PRESENT on the FIRST area, and the target `(w, h)` differs
from `tuple(resized_size)` (which equals `[w, h] = resized_size` as
lists). -/
def needsConversion (areas : List Area) (w h : ℤ) : Bool :=
  match areas with
  | [] => false
  | a :: _ =>
      match a.original_size, a.resized_size with
      | some _, some rsz => !([w, h] == rsz)
      | _, _ => false

/-- The `question_areas_converted` stage of
`get_question_positions_for_grading`: one global decision, then either
every area goes through the converter or none does. -/
def question_areas_converted (w h : ℤ) (areas : List Area) : List Area :=
  if needsConversion areas w h then convert_question_areas_to_original areas else areas

/-- Concrete areas for the C10 witness: the first area carries size
metadata requiring rescaling; the second has none. -/
def areaWithMeta : Area :=
  { question_number := "1", question_type := "choice", bbox_2d := some [10, 10, 20, 20],
    original_size := some [100, 100], resized_size := some [50, 50] }

/-- Second concrete area, without size metadata. -/
def areaNoMeta : Area :=
  { question_number := "2", question_type := "choice", bbox_2d := some [1, 2, 3, 4] }

/-- C1: the canonical correctness predicate dispatches on
`question_type`: `is_correct` (default false) for choice,
`overall_correct` (default false) for calculation — never falling back
to `is_correct` there — and `is_correct` (default false) otherwise. -/
theorem is_question_correct_dispatch (r : GradingResult) :
    (r.question_type = "choice" → is_question_correct r = r.is_correct.getD false) ∧
    (r.question_type = "calculation" →
      is_question_correct r = r.overall_correct.getD false ∧
      (r.overall_correct = none → is_question_correct r = false)) ∧
    (r.question_type ≠ "choice" → r.question_type ≠ "calculation" →
      is_question_correct r = r.is_correct.getD false) := by
  unfold is_question_correct
  refine ⟨fun h => by simp [h], fun h => ?_, fun h1 h2 => by simp [h1, h2]⟩
  rw [h]
  exact ⟨by simp, fun h' => by simp [h']⟩

/-- Witness for C1 at the calculation-without-`overall_correct` input:
the predicate judges it incorrect even though `is_correct` is true. -/
theorem is_question_correct_dispatch_witness :
    is_question_correct grCalcMissingOverall = false :=
  ((is_question_correct_dispatch grCalcMissingOverall).2.1 rfl).2 rfl

/-- C8 counterexample: at `bbox=[1,1,1,1]`, `original=[3,3]`,
`resized=[2,2]` the scale is exactly 3/2, the code truncates `1.5` to
`1`, while the claimed `round()` would give `2`; so the function does
not return the rounded values. -/
theorem convert_coords_not_rounded :
    convert_coords_to_original [1, 1, 1, 1] [3, 3] [2, 2] = [1, 1, 1, 1] ∧
    convert_coords_to_original_rounded [1, 1, 1, 1] [3, 3] [2, 2] = [2, 2, 2, 2] ∧
    convert_coords_to_original [1, 1, 1, 1] [3, 3] [2, 2] ≠
      convert_coords_to_original_rounded [1, 1, 1, 1] [3, 3] [2, 2] := by
  refine ⟨?_, ?_, ?_⟩ <;>
    norm_num [convert_coords_to_original, convert_coords_to_original_rounded,
      pyTrunc, pyRound]

/-- C8 amended: for a length-4 bbox and length-2 sizes with nonzero
resized dimensions the result is the coordinatewise truncation (toward
zero, Python `int()`) of `coordinate * original/resized`; degenerate
shapes are returned unchanged. -/
theorem convert_coords_spec (x1 y1 x2 y2 ow oh rw rh : ℤ)
    (_hw : rw ≠ 0) (_hh : rh ≠ 0) :
    convert_coords_to_original [x1, y1, x2, y2] [ow, oh] [rw, rh] =
      [pyTrunc ((x1 : ℚ) * ((ow : ℚ) / (rw : ℚ))),
       pyTrunc ((y1 : ℚ) * ((oh : ℚ) / (rh : ℚ))),
       pyTrunc ((x2 : ℚ) * ((ow : ℚ) / (rw : ℚ))),
       pyTrunc ((y2 : ℚ) * ((oh : ℚ) / (rh : ℚ)))] ∧
    (∀ bbox osz rsz : List ℤ,
      ¬ (bbox.length = 4 ∧ osz.length = 2 ∧ rsz.length = 2) →
      convert_coords_to_original bbox osz rsz = bbox) := by
  constructor
  · rfl
  · intro bbox osz rsz h
    unfold convert_coords_to_original
    split
    · rename_i x1' y1' x2' y2' ow' oh' rw' rh'
      exact absurd (by simp) h
    · rfl

/-- Witness for C8 amended at a concrete call. -/
theorem convert_coords_spec_witness :
    convert_coords_to_original [10, 20, 30, 40] [100, 200] [50, 100] =
      [pyTrunc ((10 : ℚ) * ((100 : ℚ) / (50 : ℚ))),
       pyTrunc ((20 : ℚ) * ((200 : ℚ) / (100 : ℚ))),
       pyTrunc ((30 : ℚ) * ((100 : ℚ) / (50 : ℚ))),
       pyTrunc ((40 : ℚ) * ((200 : ℚ) / (100 : ℚ)))] :=
  (convert_coords_spec 10 20 30 40 100 200 50 100 (by decide) (by decide)).1


theorem bumpErr_count (e : ErrAcc) (ex : String) :
    (bumpErr e ex).error_count = e.error_count + 1 := by
  simp only [bumpErr]
  split <;> rfl

theorem errLookup_updateErrMap_self (acc : List (String × ErrAcc)) (o ex : String) :
    errLookup o (updateErrMap acc o ex) =
      some (bumpErr ((errLookup o acc).getD ⟨0, []⟩) ex) := by
  induction acc with
  | nil => simp [updateErrMap, errLookup]
  | cons p rest ih =>
      obtain ⟨k, v⟩ := p
      by_cases hk : k = o
      · subst hk
        simp [updateErrMap, errLookup]
      · simp [updateErrMap, errLookup, hk, ih]

theorem errLookup_updateErrMap_ne (acc : List (String × ErrAcc)) (o o' ex : String)
    (h : o' ≠ o) :
    errLookup o' (updateErrMap acc o ex) = errLookup o' acc := by
  have h' : o ≠ o' := Ne.symm h
  induction acc with
  | nil => simp [updateErrMap, errLookup, h']
  | cons p rest ih =>
      obtain ⟨k, v⟩ := p
      by_cases hk : k = o
      · subst hk
        simp [updateErrMap, errLookup, h']
      · simp only [updateErrMap, if_neg hk]
        by_cases hk' : k = o'
        · simp [errLookup, hk']
        · simp [errLookup, hk', ih]

theorem errCountAt_updateErrMap_self (acc : List (String × ErrAcc)) (o ex : String) :
    errCountAt (updateErrMap acc o ex) o = errCountAt acc o + 1 := by
  unfold errCountAt
  rw [errLookup_updateErrMap_self]
  cases h : errLookup o acc <;> simp [h, bumpErr_count]

theorem errCountAt_updateErrMap_ne (acc : List (String × ErrAcc)) (o o' ex : String)
    (h : o' ≠ o) :
    errCountAt (updateErrMap acc o ex) o' = errCountAt acc o' := by
  unfold errCountAt
  rw [errLookup_updateErrMap_ne acc o o' ex h]

theorem goodMap_updateErrMap (acc : List (String × ErrAcc)) (o ex : String)
    (h : GoodMap acc) : GoodMap (updateErrMap acc o ex) := by
  intro o' v hv
  by_cases ho : o' = o
  · subst ho
    rw [errLookup_updateErrMap_self] at hv
    cases hv
    rw [bumpErr_count]
    omega
  · rw [errLookup_updateErrMap_ne acc o o' ex ho] at hv
    exact h o' v hv

theorem errLookup_none_forall (acc : List (String × ErrAcc)) (o : String)
    (h : errLookup o acc = none) : ∀ p ∈ acc, p.1 ≠ o := by
  induction acc with
  | nil => intro p hp; cases hp
  | cons q rest ih =>
      obtain ⟨k, v⟩ := q
      intro p hp
      unfold errLookup at h
      by_cases hk : k = o
      · simp [hk] at h
      · rw [if_neg hk] at h
        rcases List.mem_cons.mp hp with hp' | hp'
        · subst hp'; exact hk
        · exact ih h p hp'

theorem errLookup_some_mem (acc : List (String × ErrAcc)) (o : String) (v : ErrAcc)
    (h : errLookup o acc = some v) : (o, v) ∈ acc := by
  induction acc with
  | nil => cases h
  | cons q rest ih =>
      obtain ⟨k, w⟩ := q
      unfold errLookup at h
      by_cases hk : k = o
      · subst hk
        rw [if_pos rfl] at h
        cases h
        exact List.mem_cons_self _ _
      · rw [if_neg hk] at h
        exact List.mem_cons_of_mem _ (ih h)

theorem errCountAt_foldl_kps (ex : String) (o : String) (ho : o ≠ "")
    (kps : List KnowledgePoint) (acc : List (String × ErrAcc)) :
    errCountAt (kps.foldl
      (fun a kp => if kp.outline ≠ "" then updateErrMap a kp.outline ex else a) acc) o =
    errCountAt acc o + (kps.filter (fun kp => kp.outline == o)).length := by
  induction kps generalizing acc with
  | nil => simp
  | cons kp rest ih =>
      rw [List.foldl_cons, List.filter_cons, ih]
      by_cases hko : kp.outline = o
      · have hne : kp.outline ≠ "" := by rw [hko]; exact ho
        rw [if_pos hne, hko, errCountAt_updateErrMap_self]
        simp
        omega
      · have hbeq : (kp.outline == o) = false := by
          simp [hko]
        rw [hbeq]
        by_cases hne : kp.outline = ""
        · rw [if_neg (by simp [hne])]
          simp
        · rw [if_pos hne, errCountAt_updateErrMap_ne _ _ _ _ (Ne.symm hko)]
          simp

theorem goodMap_foldl_kps (ex : String) (kps : List KnowledgePoint)
    (acc : List (String × ErrAcc)) (h : GoodMap acc) :
    GoodMap (kps.foldl
      (fun a kp => if kp.outline ≠ "" then updateErrMap a kp.outline ex else a) acc) := by
  induction kps generalizing acc with
  | nil => exact h
  | cons kp rest ih =>
      rw [List.foldl_cons]
      apply ih
      by_cases hne : kp.outline = ""
      · rw [if_neg (by simp [hne])]
        exact h
      · rw [if_pos hne]
        exact goodMap_updateErrMap _ _ _ h

theorem errCountAt_foldl_results (o : String) (ho : o ≠ "")
    (results : List GradingResult) (acc : List (String × ErrAcc)) :
    errCountAt (results.foldl errStep acc) o =
      errCountAt acc o + outline_error_count results o := by
  induction results generalizing acc with
  | nil => simp [outline_error_count]
  | cons r rest ih =>
      rw [List.foldl_cons, ih]
      have hout : outline_error_count (r :: rest) o =
          (if is_question_incorrect r then
            (r.knowledge_points.filter (fun kp => kp.outline == o)).length else 0) +
          outline_error_count rest o := by
        simp [outline_error_count]
      rw [hout]
      unfold errStep
      by_cases hr : is_question_incorrect r
      · rw [if_pos hr, if_pos hr, errCountAt_foldl_kps r.explanation o ho]
        omega
      · rw [if_neg hr, if_neg hr]
        omega

theorem goodMap_knowledge_point_errors (results : List GradingResult) :
    GoodMap (knowledge_point_errors results) := by
  unfold knowledge_point_errors
  have base : GoodMap ([] : List (String × ErrAcc)) := by
    intro o v hv; cases hv
  generalize ([] : List (String × ErrAcc)) = acc at base ⊢
  induction results generalizing acc with
  | nil => exact base
  | cons r rest ih =>
      rw [List.foldl_cons]
      apply ih
      unfold errStep
      by_cases hr : is_question_incorrect r
      · rw [if_pos hr]
        exact goodMap_foldl_kps _ _ _ base
      · rw [if_neg hr]
        exact base

theorem errCountAt_knowledge_point_errors (results : List GradingResult)
    (o : String) (ho : o ≠ "") :
    errCountAt (knowledge_point_errors results) o = outline_error_count results o := by
  unfold knowledge_point_errors
  rw [errCountAt_foldl_results o ho]
  simp [errCountAt, errLookup]

theorem keys_updateErrMap (acc : List (String × ErrAcc)) (o ex : String) :
    (updateErrMap acc o ex).map Prod.fst =
      if (errLookup o acc).isSome then acc.map Prod.fst
      else acc.map Prod.fst ++ [o] := by
  induction acc with
  | nil => simp [updateErrMap, errLookup]
  | cons p rest ih =>
      obtain ⟨k, v⟩ := p
      by_cases hk : k = o
      · subst hk
        simp [updateErrMap, errLookup]
      · simp only [updateErrMap, if_neg hk, errLookup, List.map_cons, ih]
        split <;> simp

theorem mem_keys_iff_isSome (acc : List (String × ErrAcc)) (o : String) :
    o ∈ acc.map Prod.fst ↔ (errLookup o acc).isSome := by
  induction acc with
  | nil => simp [errLookup]
  | cons p rest ih =>
      obtain ⟨k, v⟩ := p
      by_cases hk : k = o
      · subst hk
        simp [errLookup]
      · simp [errLookup, hk, ih, Ne.symm hk]

theorem keys_foldl_kps (ex : String) (kps : List KnowledgePoint)
    (acc : List (String × ErrAcc)) :
    (kps.foldl
      (fun a kp => if kp.outline ≠ "" then updateErrMap a kp.outline ex else a) acc).map
        Prod.fst =
    kps.foldl
      (fun a kp => if kp.outline ≠ "" ∧ kp.outline ∉ a then a ++ [kp.outline] else a)
      (acc.map Prod.fst) := by
  induction kps generalizing acc with
  | nil => rfl
  | cons kp rest ih =>
      rw [List.foldl_cons, List.foldl_cons, ih]
      congr 1
      by_cases hne : kp.outline = ""
      · rw [if_neg (by simp [hne]), if_neg (by simp [hne])]
      · rw [if_pos hne, keys_updateErrMap]
        by_cases hmem : kp.outline ∈ acc.map Prod.fst
        · rw [if_pos ((mem_keys_iff_isSome acc kp.outline).mp hmem),
            if_neg (by simp [hmem])]
        · rw [if_neg (by
            intro hs
            exact hmem ((mem_keys_iff_isSome acc kp.outline).mpr hs)),
            if_pos ⟨hne, hmem⟩]

theorem keys_knowledge_point_errors (results : List GradingResult) :
    (knowledge_point_errors results).map Prod.fst = first_encounter_outlines results := by
  unfold knowledge_point_errors first_encounter_outlines
  have h : ∀ (rs : List GradingResult) (acc : List (String × ErrAcc)),
      (rs.foldl errStep acc).map Prod.fst =
        rs.foldl encounterStep (acc.map Prod.fst) := by
    intro rs
    induction rs with
    | nil => intro acc; rfl
    | cons r rest ih =>
        intro acc
        rw [List.foldl_cons, List.foldl_cons, ih]
        congr 1
        unfold errStep encounterStep
        by_cases hr : is_question_incorrect r
        · rw [if_pos hr, if_pos hr]
          exact keys_foldl_kps r.explanation r.knowledge_points acc
        · rw [if_neg hr, if_neg hr]
  exact h results []

theorem correct_imp_not_incorrect (r : GradingResult)
    (h : is_question_correct r = true) : is_question_incorrect r = false := by
  unfold is_question_correct at h
  unfold is_question_incorrect
  by_cases h1 : r.question_type = "choice"
  · rw [if_pos h1] at h ⊢
    cases hc : r.is_correct with
    | none => rw [hc] at h; cases h
    | some b => rw [hc] at h; simp at h; simp [h]
  · rw [if_neg h1] at h ⊢
    by_cases h2 : r.question_type = "calculation"
    · rw [if_pos h2] at h ⊢
      cases hc : r.overall_correct with
      | none => rw [hc] at h; cases h
      | some b => rw [hc] at h; simp at h; simp [h]
    · rw [if_neg h2] at h ⊢
      cases hc : r.is_correct with
      | none => rw [hc] at h; cases h
      | some b => rw [hc] at h; simp at h; simp [h]

theorem knowledge_point_errors_of_all_correct (results : List GradingResult)
    (h : ∀ r ∈ results, is_question_correct r = true) :
    knowledge_point_errors results = [] := by
  unfold knowledge_point_errors
  induction results with
  | nil => rfl
  | cons r rest ih =>
      rw [List.foldl_cons]
      have hr : errStep [] r = [] := by
        unfold errStep
        rw [correct_imp_not_incorrect r (h r (List.mem_cons_self _ _))]
        simp
      rw [hr]
      exact ih (fun r' hr' => h r' (List.mem_cons_of_mem _ hr'))

theorem descByCount_trans (a b c : ErrorStat) :
    descByCount a b → descByCount b c → descByCount a c := by
  simp [descByCount]
  omega

theorem descByCount_total (a b : ErrorStat) :
    descByCount a b || descByCount b a := by
  simp [descByCount]
  omega

/-- C2 counterexample: a calculation result with no `overall_correct`
key is judged incorrect by the canonical predicate (absent fields
default to false), its knowledge points contain the non-empty outline
"X", yet `analyze_error_knowledge_points` produces NO error entry at
all: the aggregation tests incorrectness with absent fields defaulting
to True, so this result does not contribute. -/
theorem analyze_missing_overall_uncounted :
    is_question_correct grCalcNoVerdict = false ∧
    grCalcNoVerdict.knowledge_points = [⟨"X", ""⟩] ∧
    analyze_error_knowledge_points [] [grCalcNoVerdict] = ([], []) := by
  refine ⟨rfl, rfl, ?_⟩
  rfl

/-- C2 amended: in `analyze_error_knowledge_points` a result
contributes exactly when the code's own incorrectness test (absent
correctness fields defaulting to correct) judges it incorrect, and a
knowledge point's `error_count` equals the number of OCCURRENCES of its
non-empty outline across the knowledge-point lists of such results:
there is no entry for an outline with zero occurrences, and otherwise
exactly the counted entry appears. -/
theorem analyze_error_count_characterization (catalog : List KnowledgePoint)
    (results : List GradingResult) (o : String) (ho : o ≠ "") :
    (outline_error_count results o = 0 →
      ∀ st ∈ (analyze_error_knowledge_points catalog results).1, st.outline ≠ o) ∧
    (outline_error_count results o ≠ 0 →
      ∃ st ∈ (analyze_error_knowledge_points catalog results).1,
        st.outline = o ∧ st.error_count = outline_error_count results o) := by
  have hcount := errCountAt_knowledge_point_errors results o ho
  constructor
  · intro hzero st hst hout
    unfold analyze_error_knowledge_points at hst
    by_cases hemp : (knowledge_point_errors results).isEmpty = true
    · rw [if_pos hemp] at hst
      simp at hst
    · rw [if_neg hemp] at hst
      simp only [List.mem_mergeSort] at hst
      unfold error_stats_unsorted at hst
      rcases List.mem_map.mp hst with ⟨p, hp, hpe⟩
      have hkey : p.1 = o := by
        rw [← hpe] at hout
        exact hout
      rw [hzero] at hcount
      unfold errCountAt at hcount
      cases hl : errLookup o (knowledge_point_errors results) with
      | none =>
          exact errLookup_none_forall _ o hl p hp hkey
      | some v =>
          rw [hl] at hcount
          simp at hcount
          have := goodMap_knowledge_point_errors results o v hl
          omega
  · intro hnz
    unfold errCountAt at hcount
    cases hl : errLookup o (knowledge_point_errors results) with
    | none =>
        rw [hl] at hcount
        exact absurd hcount.symm hnz
    | some v =>
        rw [hl] at hcount
        have hmem := errLookup_some_mem _ o v hl
        have hne : ¬ (knowledge_point_errors results).isEmpty := by
          cases hkpe : knowledge_point_errors results with
          | nil => rw [hkpe] at hmem; cases hmem
          | cons q rest => simp [hkpe]
        refine ⟨{ outline := o, detail := lookup_detail catalog o,
                  error_count := v.error_count,
                  error_examples := v.error_examples.take 3 }, ?_, rfl, hcount⟩
        unfold analyze_error_knowledge_points
        rw [if_neg hne]
        simp only [List.mem_mergeSort]
        unfold error_stats_unsorted
        exact List.mem_map.mpr ⟨(o, v), hmem, rfl⟩

/-- Witness for C2 amended: an incorrect choice result listing outline
"X" twice yields an entry with `error_count` equal to the occurrence
count (2). -/
theorem analyze_error_count_characterization_witness :
    ∃ st ∈ (analyze_error_knowledge_points [] [grChoiceWrongTwice]).1,
      st.outline = "X" ∧ st.error_count = outline_error_count [grChoiceWrongTwice] "X" :=
  (analyze_error_count_characterization [] [grChoiceWrongTwice] "X"
    (by decide)).2 (by decide)

/-- C6: the returned `error_knowledge_points` list is a permutation of
the first-encounter statistics, sorted descending by `error_count`,
stable on ties (pairs in first-encounter order with equal counts keep
that order), its outline column before sorting is exactly the
first-encounter order, `top_error_points` is the first 2 entries of the
sorted list, and both lists are empty when every result is judged
correct by the canonical predicate. -/
theorem analyze_sorted_characterization (catalog : List KnowledgePoint)
    (results : List GradingResult) :
    ((analyze_error_knowledge_points catalog results).1.Pairwise
        (fun a b => b.error_count ≤ a.error_count)) ∧
    (∀ a b : ErrorStat, a.error_count = b.error_count →
        List.Sublist [a, b] (error_stats_unsorted catalog results) →
        List.Sublist [a, b] (analyze_error_knowledge_points catalog results).1) ∧
    ((analyze_error_knowledge_points catalog results).1.Perm
        (error_stats_unsorted catalog results)) ∧
    ((error_stats_unsorted catalog results).map ErrorStat.outline =
        first_encounter_outlines results) ∧
    ((analyze_error_knowledge_points catalog results).2 =
        (analyze_error_knowledge_points catalog results).1.take 2) ∧
    ((∀ r ∈ results, is_question_correct r = true) →
        analyze_error_knowledge_points catalog results = ([], [])) := by
  have hout : (error_stats_unsorted catalog results).map ErrorStat.outline =
      first_encounter_outlines results := by
    rw [← keys_knowledge_point_errors]
    unfold error_stats_unsorted
    rw [List.map_map]
    rfl
  refine ⟨?_, ?_, ?_, hout, ?_, ?_⟩
  · unfold analyze_error_knowledge_points
    by_cases hemp : (knowledge_point_errors results).isEmpty = true
    · rw [if_pos hemp]
      exact List.Pairwise.nil
    · rw [if_neg hemp]
      have hs := List.sorted_mergeSort descByCount_trans descByCount_total
        (error_stats_unsorted catalog results)
      exact hs.imp (fun hab => by
        have := of_decide_eq_true hab
        exact this)
  · intro a b hab hsub
    unfold analyze_error_knowledge_points
    by_cases hemp : (knowledge_point_errors results).isEmpty = true
    · exfalso
      have : error_stats_unsorted catalog results = [] := by
        unfold error_stats_unsorted
        rw [List.isEmpty_iff.mp hemp]
        rfl
      rw [this] at hsub
      cases hsub
    · rw [if_neg hemp]
      refine List.pair_sublist_mergeSort descByCount_trans descByCount_total ?_ hsub
      unfold descByCount
      rw [hab]
      simp
  · unfold analyze_error_knowledge_points
    by_cases hemp : (knowledge_point_errors results).isEmpty = true
    · rw [if_pos hemp]
      have : error_stats_unsorted catalog results = [] := by
        unfold error_stats_unsorted
        rw [List.isEmpty_iff.mp hemp]
        rfl
      rw [this]
    · rw [if_neg hemp]
      exact List.mergeSort_perm _ _
  · unfold analyze_error_knowledge_points
    by_cases hemp : (knowledge_point_errors results).isEmpty = true
    · rw [if_pos hemp]
      rfl
    · rw [if_neg hemp]
  · intro hall
    unfold analyze_error_knowledge_points
    rw [knowledge_point_errors_of_all_correct results hall]
    rfl

/-- Witness for C6, applying the empty-output clause to a list whose
single result is a correctly answered choice question. -/
theorem analyze_sorted_characterization_witness :
    analyze_error_knowledge_points [] [grChoiceRight] = ([], []) :=
  (analyze_sorted_characterization [] [grChoiceRight]).2.2.2.2.2
    (by decide)

/-- C5 counterexample: the outline "有理数加法法则" and the target name
"加法运算定律" both contain the keyword "加法" (and "法" clusters), so
the spec's loose criterion includes the question, but the code performs
exact matching only and returns nothing. -/
theorem get_questions_no_fuzzy_match :
    get_questions_by_knowledge_points [qAdd] ["加法运算定律"] = [] ∧
    sharesTopicalKeyword "有理数加法法则" "加法运算定律" = true ∧
    get_questions_by_knowledge_points_loose [qAdd] ["加法运算定律"] = [qAdd] := by
  refine ⟨rfl, rfl, rfl⟩

/-- C5 amended: `get_questions_by_knowledge_points` includes a question
exactly when one of its knowledge points' outline is literally equal to
one of the requested names (no fuzzy criterion), and when the bank has
no duplicate entries each matching question appears at most once. -/
theorem get_questions_exact_match (bank : List Question) (names : List String) :
    (∀ q, q ∈ get_questions_by_knowledge_points bank names ↔
      q ∈ bank ∧ ∃ kp ∈ q.knowledge_points, kp.outline ∈ names) ∧
    (bank.Nodup → (get_questions_by_knowledge_points bank names).Nodup) := by
  constructor
  · intro q
    simp [get_questions_by_knowledge_points, List.mem_filter, List.any_eq_true]
  · intro h
    exact h.filter _

/-- Witness for C5 amended at a concrete bank. -/
theorem get_questions_exact_match_witness :
    (get_questions_by_knowledge_points bankEx ["A"]).Nodup :=
  (get_questions_exact_match bankEx ["A"]).2 (by decide)

theorem subperm_nodup {l₁ l₂ : List Question} (h : l₁.Subperm l₂) (h₂ : l₂.Nodup) :
    l₁.Nodup := by
  obtain ⟨l, hp, hsl⟩ := h
  exact hp.nodup (List.Nodup.sublist hsl h₂)

theorem perm_of_nodup_mem_iff {l₁ l₂ : List Question} (h₁ : l₁.Nodup) (h₂ : l₂.Nodup)
    (h : ∀ x, x ∈ l₁ ↔ x ∈ l₂) : l₁.Perm l₂ :=
  List.Subperm.antisymm
    (List.subperm_of_subset h₁ (fun x hx => (h x).mp hx))
    (List.subperm_of_subset h₂ (fun x hx => (h x).mpr hx))

theorem mem_allChoice_type {bank : List Question} {q : Question}
    (h : q ∈ allChoice bank) : q.type = "choice" := by
  unfold allChoice at h
  have := (List.mem_filter.mp h).2
  simpa using this

theorem mem_allCalc_type {bank : List Question} {q : Question}
    (h : q ∈ allCalc bank) : q.type = "calculation" := by
  unfold allCalc at h
  have := (List.mem_filter.mp h).2
  simpa using this

theorem matchingChoice_sublist (bank : List Question) (names : List String) :
    (matchingChoice bank names).Sublist (allChoice bank) := by
  unfold matchingChoice allChoice get_questions_by_knowledge_points
  exact List.Sublist.filter _ (List.filter_sublist _)

theorem matchingCalc_sublist (bank : List Question) (names : List String) :
    (matchingCalc bank names).Sublist (allCalc bank) := by
  unfold matchingCalc allCalc get_questions_by_knowledge_points
  exact List.Sublist.filter _ (List.filter_sublist _)

theorem allChoice_sublist (bank : List Question) : (allChoice bank).Sublist bank :=
  List.filter_sublist _

theorem allCalc_sublist (bank : List Question) : (allCalc bank).Sublist bank :=
  List.filter_sublist _

theorem selChoice1_subperm {sample : List Question → Nat → List Question}
    (hs : IsSampler sample) (bank : List Question) (names : List String)
    (cc : Nat) :
    (selChoice1 sample bank names cc).Subperm (matchingChoice bank names) := by
  unfold selChoice1
  split
  · exact List.nil_subperm
  · exact (hs _ _ (Nat.min_le_right _ _)).2

theorem selChoice1_len {sample : List Question → Nat → List Question}
    (hs : IsSampler sample) (bank : List Question) (names : List String)
    (cc : Nat) :
    (selChoice1 sample bank names cc).length ≤ cc := by
  unfold selChoice1
  split
  · simp
  · rw [(hs _ _ (Nat.min_le_right _ _)).1]
    exact Nat.min_le_left _ _

theorem mem_selChoice1_type {sample : List Question → Nat → List Question}
    (hs : IsSampler sample) {bank : List Question} {names : List String}
    {cc : Nat} {q : Question} (h : q ∈ selChoice1 sample bank names cc) :
    q.type = "choice" := by
  have hm := (selChoice1_subperm hs bank names cc).subset h
  unfold matchingChoice at hm
  have := (List.mem_filter.mp hm).2
  simpa using this

theorem selChoice2_subperm {sample : List Question → Nat → List Question}
    (hs : IsSampler sample) (bank : List Question) (names : List String)
    (cc : Nat) :
    (selChoice2 sample bank names cc).Subperm
      ((allChoice bank).filter
        (fun q => decide (q ∉ selChoice1 sample bank names cc))) := by
  unfold selChoice2
  dsimp only
  split
  · split
    · exact List.nil_subperm
    · exact (hs _ _ (Nat.min_le_right _ _)).2
  · exact List.nil_subperm

theorem selChoice2_len {sample : List Question → Nat → List Question}
    (hs : IsSampler sample) (bank : List Question) (names : List String)
    (cc : Nat) :
    (selChoice2 sample bank names cc).length ≤
      cc - (selChoice1 sample bank names cc).length := by
  unfold selChoice2
  dsimp only
  split
  · split
    · simp
    · rw [(hs _ _ (Nat.min_le_right _ _)).1]
      exact Nat.min_le_left _ _
  · simp

theorem mem_selChoice2 {sample : List Question → Nat → List Question}
    (hs : IsSampler sample) {bank : List Question} {names : List String}
    {cc : Nat} {q : Question} (h : q ∈ selChoice2 sample bank names cc) :
    q ∈ allChoice bank ∧ q ∉ selChoice1 sample bank names cc := by
  have hm := (selChoice2_subperm hs bank names cc).subset h
  have := List.mem_filter.mp hm
  exact ⟨this.1, of_decide_eq_true this.2⟩

theorem selCalc1_subperm {sample : List Question → Nat → List Question}
    (hs : IsSampler sample) (bank : List Question) (names : List String)
    (cac : Nat) :
    (selCalc1 sample bank names cac).Subperm (matchingCalc bank names) := by
  unfold selCalc1
  split
  · exact List.nil_subperm
  · exact (hs _ _ (Nat.min_le_right _ _)).2

theorem selCalc1_len {sample : List Question → Nat → List Question}
    (hs : IsSampler sample) (bank : List Question) (names : List String)
    (cac : Nat) :
    (selCalc1 sample bank names cac).length ≤ cac := by
  unfold selCalc1
  split
  · simp
  · rw [(hs _ _ (Nat.min_le_right _ _)).1]
    exact Nat.min_le_left _ _

theorem mem_selCalc1_type {sample : List Question → Nat → List Question}
    (hs : IsSampler sample) {bank : List Question} {names : List String}
    {cac : Nat} {q : Question} (h : q ∈ selCalc1 sample bank names cac) :
    q.type = "calculation" := by
  have hm := (selCalc1_subperm hs bank names cac).subset h
  unfold matchingCalc at hm
  have := (List.mem_filter.mp hm).2
  simpa using this

theorem selCalc2_subperm {sample : List Question → Nat → List Question}
    (hs : IsSampler sample) (bank : List Question) (names : List String)
    (cc cac : Nat) :
    (selCalc2 sample bank names cc cac).Subperm
      ((allCalc bank).filter
        (fun q => decide (q ∉ selBeforeCalcFill sample bank names cc cac))) := by
  unfold selCalc2
  dsimp only
  split
  · split
    · exact List.nil_subperm
    · exact (hs _ _ (Nat.min_le_right _ _)).2
  · exact List.nil_subperm

theorem selCalc2_len {sample : List Question → Nat → List Question}
    (hs : IsSampler sample) (bank : List Question) (names : List String)
    (cc cac : Nat) :
    (selCalc2 sample bank names cc cac).length ≤
      cac - ((selBeforeCalcFill sample bank names cc cac).filter
        (fun q => q.type == "calculation")).length := by
  unfold selCalc2
  dsimp only
  split
  · split
    · simp
    · rw [(hs _ _ (Nat.min_le_right _ _)).1]
      exact Nat.min_le_left _ _
  · simp

theorem mem_selCalc2 {sample : List Question → Nat → List Question}
    (hs : IsSampler sample) {bank : List Question} {names : List String}
    {cc cac : Nat} {q : Question} (h : q ∈ selCalc2 sample bank names cc cac) :
    q ∈ allCalc bank ∧ q ∉ selBeforeCalcFill sample bank names cc cac := by
  have hm := (selCalc2_subperm hs bank names cc cac).subset h
  have := List.mem_filter.mp hm
  exact ⟨this.1, of_decide_eq_true this.2⟩

theorem filter_calc_selBefore {sample : List Question → Nat → List Question}
    (hs : IsSampler sample) (bank : List Question) (names : List String)
    (cc cac : Nat) :
    (selBeforeCalcFill sample bank names cc cac).filter
        (fun q => q.type == "calculation") =
      selCalc1 sample bank names cac := by
  unfold selBeforeCalcFill
  rw [List.filter_append, List.filter_append]
  have h1 : (selChoice1 sample bank names cc).filter
      (fun q => q.type == "calculation") = [] := by
    rw [List.filter_eq_nil_iff]
    intro a ha
    rw [mem_selChoice1_type hs ha]
    decide
  have h2 : (selChoice2 sample bank names cc).filter
      (fun q => q.type == "calculation") = [] := by
    rw [List.filter_eq_nil_iff]
    intro a ha
    rw [mem_allChoice_type (mem_selChoice2 hs ha).1]
    decide
  have h3 : (selCalc1 sample bank names cac).filter
      (fun q => q.type == "calculation") = selCalc1 sample bank names cac := by
    rw [List.filter_eq_self]
    intro a ha
    rw [mem_selCalc1_type hs ha]
    decide
  rw [h1, h2, h3]
  rfl

theorem filter_choice_selBefore {sample : List Question → Nat → List Question}
    (hs : IsSampler sample) (bank : List Question) (names : List String)
    (cc cac : Nat) :
    (selBeforeCalcFill sample bank names cc cac).filter
        (fun q => q.type == "choice") =
      selChoice1 sample bank names cc ++ selChoice2 sample bank names cc := by
  unfold selBeforeCalcFill
  rw [List.filter_append, List.filter_append]
  have h1 : (selChoice1 sample bank names cc).filter
      (fun q => q.type == "choice") = selChoice1 sample bank names cc := by
    rw [List.filter_eq_self]
    intro a ha
    rw [mem_selChoice1_type hs ha]
    decide
  have h2 : (selChoice2 sample bank names cc).filter
      (fun q => q.type == "choice") = selChoice2 sample bank names cc := by
    rw [List.filter_eq_self]
    intro a ha
    rw [mem_allChoice_type (mem_selChoice2 hs ha).1]
    decide
  have h3 : (selCalc1 sample bank names cac).filter
      (fun q => q.type == "choice") = [] := by
    rw [List.filter_eq_nil_iff]
    intro a ha
    rw [mem_selCalc1_type hs ha]
    decide
  rw [h1, h2, h3]
  simp

theorem filter_choice_selCalc2 {sample : List Question → Nat → List Question}
    (hs : IsSampler sample) (bank : List Question) (names : List String)
    (cc cac : Nat) :
    (selCalc2 sample bank names cc cac).filter (fun q => q.type == "choice") = [] := by
  rw [List.filter_eq_nil_iff]
  intro a ha
  rw [mem_allCalc_type (mem_selCalc2 hs ha).1]
  decide

theorem filter_calc_selCalc2 {sample : List Question → Nat → List Question}
    (hs : IsSampler sample) (bank : List Question) (names : List String)
    (cc cac : Nat) :
    (selCalc2 sample bank names cc cac).filter (fun q => q.type == "calculation") =
      selCalc2 sample bank names cc cac := by
  rw [List.filter_eq_self]
  intro a ha
  rw [mem_allCalc_type (mem_selCalc2 hs ha).1]
  decide

/-- C3: under a bank whose question ids are pairwise distinct (the
stated invariant of the question dataset, enforced by
`validate_question_bank`), every draw of
`get_random_questions_by_knowledge_points` — for any sampler behaving
like `random.sample`, any name list and any requested counts — returns
a list with no repeated question id. -/
theorem get_random_no_duplicate_ids (sample : List Question → Nat → List Question)
    (hs : IsSampler sample) (bank : List Question) (names : List String)
    (cc cac : Nat) (hids : (bank.map Question.id).Nodup) :
    ((get_random_questions_by_knowledge_points sample bank names cc cac).map
      Question.id).Nodup := by
  have hbank : bank.Nodup := List.Nodup.of_map _ hids
  have hac : (allChoice bank).Nodup := hbank.filter _
  have hak : (allCalc bank).Nodup := hbank.filter _
  have hmc : (matchingChoice bank names).Nodup :=
    List.Nodup.sublist (matchingChoice_sublist bank names) hac
  have hmk : (matchingCalc bank names).Nodup :=
    List.Nodup.sublist (matchingCalc_sublist bank names) hak
  have n1 : (selChoice1 sample bank names cc).Nodup :=
    subperm_nodup (selChoice1_subperm hs bank names cc) hmc
  have n2 : (selChoice2 sample bank names cc).Nodup :=
    subperm_nodup (selChoice2_subperm hs bank names cc) (hac.filter _)
  have n3 : (selCalc1 sample bank names cac).Nodup :=
    subperm_nodup (selCalc1_subperm hs bank names cac) hmk
  have n4 : (selCalc2 sample bank names cc cac).Nodup :=
    subperm_nodup (selCalc2_subperm hs bank names cc cac) (hak.filter _)
  have m1 : ∀ q ∈ selChoice1 sample bank names cc, q ∈ bank := fun q hq =>
    (allChoice_sublist bank).subset
      ((matchingChoice_sublist bank names).subset
        ((selChoice1_subperm hs bank names cc).subset hq))
  have m2 : ∀ q ∈ selChoice2 sample bank names cc, q ∈ bank := fun q hq =>
    (allChoice_sublist bank).subset (mem_selChoice2 hs hq).1
  have m3 : ∀ q ∈ selCalc1 sample bank names cac, q ∈ bank := fun q hq =>
    (allCalc_sublist bank).subset
      ((matchingCalc_sublist bank names).subset
        ((selCalc1_subperm hs bank names cac).subset hq))
  have m4 : ∀ q ∈ selCalc2 sample bank names cc cac, q ∈ bank := fun q hq =>
    (allCalc_sublist bank).subset (mem_selCalc2 hs hq).1
  have hne : ("choice" : String) ≠ "calculation" := by decide
  have d12 : List.Disjoint (selChoice1 sample bank names cc)
      (selChoice2 sample bank names cc) := by
    intro a ha1 ha2
    exact (mem_selChoice2 hs ha2).2 ha1
  have n12 : (selChoice1 sample bank names cc ++
      selChoice2 sample bank names cc).Nodup := n1.append n2 d12
  have d12_3 : List.Disjoint (selChoice1 sample bank names cc ++
      selChoice2 sample bank names cc) (selCalc1 sample bank names cac) := by
    intro a ha ha3
    have hty : a.type = "calculation" := mem_selCalc1_type hs ha3
    rcases List.mem_append.mp ha with h | h
    · exact hne ((mem_selChoice1_type hs h).symm.trans hty)
    · exact hne ((mem_allChoice_type (mem_selChoice2 hs h).1).symm.trans hty)
  have n123 : (selChoice1 sample bank names cc ++ selChoice2 sample bank names cc ++
      selCalc1 sample bank names cac).Nodup := n12.append n3 d12_3
  have hbefore : selBeforeCalcFill sample bank names cc cac =
      selChoice1 sample bank names cc ++ selChoice2 sample bank names cc ++
        selCalc1 sample bank names cac := rfl
  have d123_4 : List.Disjoint (selChoice1 sample bank names cc ++
      selChoice2 sample bank names cc ++ selCalc1 sample bank names cac)
      (selCalc2 sample bank names cc cac) := by
    intro a ha ha4
    have := (mem_selCalc2 hs ha4).2
    rw [hbefore] at this
    exact this ha
  have nall : (get_random_questions_by_knowledge_points sample bank names cc cac).Nodup := by
    have : (selChoice1 sample bank names cc ++ selChoice2 sample bank names cc ++
        selCalc1 sample bank names cac ++ selCalc2 sample bank names cc cac).Nodup :=
      n123.append n4 d123_4
    exact this
  have hres_sub : ∀ q ∈ get_random_questions_by_knowledge_points sample bank names cc cac,
      q ∈ bank := by
    intro q hq
    unfold get_random_questions_by_knowledge_points at hq
    rw [hbefore] at hq
    rcases List.mem_append.mp hq with h | h
    · rcases List.mem_append.mp h with h' | h'
      · rcases List.mem_append.mp h' with h'' | h''
        · exact m1 q h''
        · exact m2 q h''
      · exact m3 q h'
    · exact m4 q h
  exact List.Nodup.map_on
    (fun x hx y hy hxy =>
      List.inj_on_of_nodup_map hids (hres_sub x hx) (hres_sub y hy) hxy)
    nall

/-- The deterministic take-sampler satisfies the `random.sample`
contract. -/
theorem takeSampler_isSampler : IsSampler takeSampler := by
  intro pop k hk
  constructor
  · simp [takeSampler]
    omega
  · exact (List.take_sublist k pop).subperm

/-- Witness for C3 at a concrete bank, names and counts. -/
theorem get_random_no_duplicate_ids_witness :
    ((get_random_questions_by_knowledge_points takeSampler bankEx ["A"] 2 2).map
      Question.id).Nodup :=
  get_random_no_duplicate_ids takeSampler takeSampler_isSampler bankEx ["A"] 2 2
    (by decide)

theorem twoPhase_fill_perm (sample : List Question → Nat → List Question)
    (hs : IsSampler sample) (mlist alist s1 s2 : List Question) (count : Nat)
    (hs1 : s1.Subperm mlist) (hm : mlist.Sublist alist) (ha : alist.Nodup)
    (hcount : alist.length ≤ count)
    (hs2 : s2 = if 0 < count - s1.length then
        (if ((alist.filter (fun q => decide (q ∉ s1)))).isEmpty then []
         else sample (alist.filter (fun q => decide (q ∉ s1)))
           (min (count - s1.length) (alist.filter (fun q => decide (q ∉ s1))).length))
      else []) :
    (s1 ++ s2).Perm alist := by
  have hsub_al : s1.Subperm alist := hs1.trans hm.subperm
  have hnd1 : s1.Nodup := subperm_nodup hsub_al ha
  have hsubset : s1 ⊆ alist := hsub_al.subset
  have hlen1 : s1.length ≤ alist.length := hsub_al.length_le
  have hperm_part : (alist.filter (fun q => decide (q ∈ s1)) ++
      alist.filter (fun q => decide (q ∉ s1))).Perm alist := by
    have h := List.filter_append_perm (fun q => decide (q ∈ s1)) alist
    have hpred : (fun q => !(decide (q ∈ s1))) = (fun q => decide (q ∉ s1)) := by
      funext q
      simp [decide_not]
    rw [hpred] at h
    exact h
  have hinter : (alist.filter (fun q => decide (q ∈ s1))).Perm s1 := by
    refine perm_of_nodup_mem_iff (ha.filter _) hnd1 (fun x => ?_)
    simp only [List.mem_filter, decide_eq_true_eq]
    exact ⟨fun h => h.2, fun h => ⟨hsubset h, h⟩⟩
  have hlen_avail : (alist.filter (fun q => decide (q ∉ s1))).length =
      alist.length - s1.length := by
    have h1 := hperm_part.length_eq
    have h2 := hinter.length_eq
    rw [List.length_append] at h1
    omega
  have hnd_avail : (alist.filter (fun q => decide (q ∉ s1))).Nodup := ha.filter _
  have hperm_s1_avail : (s1 ++ alist.filter (fun q => decide (q ∉ s1))).Perm alist := by
    refine perm_of_nodup_mem_iff ?_ ha (fun x => ?_)
    · refine hnd1.append hnd_avail ?_
      intro a ha1 ha2
      exact (of_decide_eq_true (List.mem_filter.mp ha2).2) ha1
    · simp only [List.mem_append, List.mem_filter, decide_eq_true_eq]
      constructor
      · rintro (h | h)
        · exact hsubset h
        · exact h.1
      · intro h
        by_cases hx : x ∈ s1
        · exact Or.inl hx
        · exact Or.inr ⟨h, hx⟩
  by_cases hrem : 0 < count - s1.length
  · rw [hs2, if_pos hrem]
    by_cases hemp : (alist.filter (fun q => decide (q ∉ s1))).isEmpty = true
    · rw [if_pos hemp]
      have h0 : (alist.filter (fun q => decide (q ∉ s1))).length = 0 := by
        rw [List.isEmpty_iff] at hemp
        rw [hemp]
        rfl
      have hge : alist.length ≤ s1.length := by omega
      have hp := hsub_al.perm_of_length_le hge
      simpa using hp
    · rw [if_neg hemp]
      have hge : (alist.filter (fun q => decide (q ∉ s1))).length ≤
          count - s1.length := by
        omega
      rw [Nat.min_eq_right hge]
      obtain ⟨hl2, hsp2⟩ :=
        hs _ _ (Nat.le_refl (alist.filter (fun q => decide (q ∉ s1))).length)
      have hperm2 : (sample (alist.filter (fun q => decide (q ∉ s1)))
          (alist.filter (fun q => decide (q ∉ s1))).length).Perm
          (alist.filter (fun q => decide (q ∉ s1))) :=
        hsp2.perm_of_length_le (by rw [hl2])
      exact ((List.Perm.refl s1).append hperm2).trans hperm_s1_avail
  · rw [hs2, if_neg hrem]
    have hge : alist.length ≤ s1.length := by omega
    have hp := hsub_al.perm_of_length_le hge
    simpa using hp

/-- C4: for every draw (any `random.sample`-like sampler, any names and
counts, a bank with distinct ids) the number of returned choice
questions is at most `choice_count` and of calculation questions at
most `calculation_count`; and when a count is at least the total number
of questions of that type in the bank, the returned questions of that
type are exactly all of them (a permutation of the bank's list of that
type). -/
theorem get_random_count_bounds (sample : List Question → Nat → List Question)
    (hs : IsSampler sample) (bank : List Question) (names : List String)
    (cc cac : Nat) (hids : (bank.map Question.id).Nodup) :
    ((get_random_questions_by_knowledge_points sample bank names cc cac).filter
        (fun q => q.type == "choice")).length ≤ cc ∧
    ((get_random_questions_by_knowledge_points sample bank names cc cac).filter
        (fun q => q.type == "calculation")).length ≤ cac ∧
    ((allChoice bank).length ≤ cc →
      ((get_random_questions_by_knowledge_points sample bank names cc cac).filter
          (fun q => q.type == "choice")).Perm (allChoice bank)) ∧
    ((allCalc bank).length ≤ cac →
      ((get_random_questions_by_knowledge_points sample bank names cc cac).filter
          (fun q => q.type == "calculation")).Perm (allCalc bank)) := by
  have hbank : bank.Nodup := List.Nodup.of_map _ hids
  have hfc : (get_random_questions_by_knowledge_points sample bank names cc cac).filter
      (fun q => q.type == "choice") =
      selChoice1 sample bank names cc ++ selChoice2 sample bank names cc := by
    unfold get_random_questions_by_knowledge_points
    rw [List.filter_append, filter_choice_selBefore hs bank names cc cac,
      filter_choice_selCalc2 hs bank names cc cac, List.append_nil]
  have hfk : (get_random_questions_by_knowledge_points sample bank names cc cac).filter
      (fun q => q.type == "calculation") =
      selCalc1 sample bank names cac ++ selCalc2 sample bank names cc cac := by
    unfold get_random_questions_by_knowledge_points
    rw [List.filter_append, filter_calc_selBefore hs bank names cc cac,
      filter_calc_selCalc2 hs bank names cc cac]
  refine ⟨?_, ?_, ?_, ?_⟩
  · rw [hfc, List.length_append]
    have l1 := selChoice1_len hs bank names cc
    have l2 := selChoice2_len hs bank names cc
    omega
  · rw [hfk, List.length_append]
    have l3 := selCalc1_len hs bank names cac
    have l4 := selCalc2_len hs bank names cc cac
    rw [filter_calc_selBefore hs bank names cc cac] at l4
    omega
  · intro hcc
    rw [hfc]
    exact twoPhase_fill_perm sample hs (matchingChoice bank names) (allChoice bank)
      _ _ cc (selChoice1_subperm hs bank names cc) (matchingChoice_sublist bank names)
      (hbank.filter _) hcc rfl
  · intro hcac
    rw [hfk]
    refine twoPhase_fill_perm sample hs (matchingCalc bank names) (allCalc bank)
      _ _ cac (selCalc1_subperm hs bank names cac) (matchingCalc_sublist bank names)
      (hbank.filter _) hcac ?_
    have hne : ("choice" : String) ≠ "calculation" := by decide
    have havail : (allCalc bank).filter
        (fun q => decide (q ∉ selBeforeCalcFill sample bank names cc cac)) =
        (allCalc bank).filter
          (fun q => decide (q ∉ selCalc1 sample bank names cac)) := by
      apply List.filter_congr
      intro q hq
      have hty := mem_allCalc_type hq
      have hnot1 : q ∉ selChoice1 sample bank names cc := fun h =>
        hne ((mem_selChoice1_type hs h).symm.trans hty)
      have hnot2 : q ∉ selChoice2 sample bank names cc := fun h =>
        hne ((mem_allChoice_type (mem_selChoice2 hs h).1).symm.trans hty)
      rw [decide_eq_decide]
      constructor
      · intro h h3
        refine h ?_
        unfold selBeforeCalcFill
        exact List.mem_append.mpr (Or.inr h3)
      · intro h hq'
        unfold selBeforeCalcFill at hq'
        rcases List.mem_append.mp hq' with h' | h'
        · rcases List.mem_append.mp h' with h'' | h''
          · exact hnot1 h''
          · exact hnot2 h''
        · exact h h'
    unfold selCalc2
    dsimp only
    rw [filter_calc_selBefore hs bank names cc cac, havail]

/-- Witness for C4 at a concrete bank with a count exceeding the number
of choice questions: the choice part of the result is a permutation of
all choice questions. -/
theorem get_random_count_bounds_witness :
    ((get_random_questions_by_knowledge_points takeSampler bankEx ["A"] 5 1).filter
        (fun q => q.type == "choice")).Perm (allChoice bankEx) :=
  (get_random_count_bounds takeSampler takeSampler_isSampler bankEx ["A"] 5 1
    (by decide)).2.2.1 (by decide)

/-- C9 counterexample: for the calculation question whose last solution
step is "1+2=3", `practice_to_dict` stores "1" — the FIRST match of the
pattern, found at the leftmost position — although the trailing signed
numeral of that step is "3"; so the answer field is not the trailing
numeral. -/
theorem practice_answer_not_trailing :
    (build_question_dict qCalcEx).answer = some "1" ∧
    searchNumeralLast ("1+2=3".toList) = some "3" ∧
    ("1" : String) ≠ "3" := by
  refine ⟨rfl, rfl, by decide⟩

/-- C9 amended: for every calculation question with a non-empty
`solution_steps` list, the per-question dict built by
`practice_to_dict` carries as `answer` the LEFTMOST match of the
pattern `=?\s*([+-]?\d+(?:\.\d+)?)` in the last step's text (which need
not be the trailing numeral), and the empty string when the pattern
does not match at all; no error is raised. -/
theorem practice_calc_answer_first_match (q : Question) (steps : List SolutionStep)
    (hty : q.type = "calculation") (hsteps : q.solution_steps = some steps)
    (hne : steps ≠ []) :
    (build_question_dict q).answer =
      some ((searchNumeral ((steps.getLast?.getD ⟨""⟩).step.toList)).getD "") := by
  unfold build_question_dict
  rw [hsteps]
  dsimp only
  rw [if_neg (by simp [hne]), if_pos hty]

/-- Witness for C9 amended at the concrete question. -/
theorem practice_calc_answer_first_match_witness :
    (build_question_dict qCalcEx).answer =
      some ((searchNumeral ((([⟨"1+2=3"⟩] : List SolutionStep).getLast?.getD
        ⟨""⟩).step.toList)).getD "") :=
  practice_calc_answer_first_match qCalcEx [⟨"1+2=3"⟩] rfl rfl (by decide)

/-- C10: the rescaling in `get_question_positions_for_grading` is
all-or-none: the decision is a function of the target size and the
FIRST area's size metadata only, and once taken it sends every area
through the same per-area converter (or leaves every area untouched);
an area without truthy size metadata of its own passes through the
converter unchanged. -/
theorem conversion_all_or_none (w h : ℤ) (areas : List Area) :
    (∀ (i : Nat) (a : Area), areas[i]? = some a →
      (question_areas_converted w h areas)[i]? =
        some (if needsConversion areas w h then convertAreaOne a else a)) ∧
    (∀ (areas' : List Area) (a0 a0' : Area), areas.head? = some a0 →
      areas'.head? = some a0' → a0.original_size = a0'.original_size →
      a0.resized_size = a0'.resized_size →
      needsConversion areas w h = needsConversion areas' w h) ∧
    (∀ a : Area, truthySize a.original_size = none ∨ truthySize a.resized_size = none →
      convertAreaOne a = a) := by
  refine ⟨?_, ?_, ?_⟩
  · intro i a hi
    unfold question_areas_converted
    by_cases hc : needsConversion areas w h = true
    · rw [if_pos hc, if_pos hc]
      unfold convert_question_areas_to_original
      rw [List.getElem?_map, hi]
      rfl
    · rw [if_neg hc, if_neg hc, hi]
  · intro areas' a0 a0' h0 h0' hosz hrsz
    cases areas with
    | nil => cases h0
    | cons x xs =>
        cases areas' with
        | nil => cases h0'
        | cons y ys =>
            simp only [List.head?] at h0 h0'
            cases h0
            cases h0'
            unfold needsConversion
            dsimp only
            rw [hosz, hrsz]
  · intro a hnone
    unfold convertAreaOne
    cases ho : truthySize a.original_size with
    | none => rfl
    | some osz =>
        cases hr : truthySize a.resized_size with
        | none => rfl
        | some rsz =>
            rcases hnone with h1 | h1
            · rw [ho] at h1; cases h1
            · rw [hr] at h1; cases h1

/-- Witness for C10: with a first area demanding conversion, the
second, metadata-free area is still routed by the global decision. -/
theorem conversion_all_or_none_witness :
    (question_areas_converted 100 100 [areaWithMeta, areaNoMeta])[1]? =
      some (if needsConversion [areaWithMeta, areaNoMeta] 100 100 then
        convertAreaOne areaNoMeta else areaNoMeta) :=
  (conversion_all_or_none 100 100 [areaWithMeta, areaNoMeta]).1 1 areaNoMeta rfl

theorem assignSeqQs_snd (areas : List Area) (qs : List SAQuestion) (idx : Nat)
    (hb : idx + qs.length ≤ areas.length) :
    (assignSeqQs areas idx qs).2 = idx + qs.length := by
  induction qs generalizing idx with
  | nil => simp [assignSeqQs]
  | cons q rest ih =>
      have hlt : idx < areas.length := by
        simp only [List.length_cons] at hb
        omega
      unfold assignSeqQs
      rw [dif_pos hlt]
      dsimp only
      rw [ih (idx + 1) (by simp only [List.length_cons] at hb ⊢; omega)]
      simp only [List.length_cons]
      omega

theorem assignSeqQs_get (areas : List Area) (qs : List SAQuestion) (idx : Nat)
    (hb : idx + qs.length ≤ areas.length) (j : Nat) (q : SAQuestion)
    (hq : qs[j]? = some q) (a : Area) (ha : areas[idx + j]? = some a) :
    (assignSeqQs areas idx qs).1[j]? =
      some { q with positions := some (posOfArea a) } := by
  induction qs generalizing idx j with
  | nil => cases hq
  | cons q0 rest ih =>
      have hlt : idx < areas.length := by
        simp only [List.length_cons] at hb
        omega
      unfold assignSeqQs
      rw [dif_pos hlt]
      dsimp only
      cases j with
      | zero =>
          rw [List.getElem?_cons_zero] at hq
          cases hq
          have hget : areas.get ⟨idx, hlt⟩ = a := by
            have h1 : areas[idx]? = some (areas.get ⟨idx, hlt⟩) := by
              rw [List.getElem?_eq_getElem hlt]
              rfl
            have h2 : areas[idx]? = some a := by simpa using ha
            rw [h1] at h2
            exact (Option.some.injEq _ _).mp h2
          rw [List.getElem?_cons_zero, hget]
      | succ j' =>
          rw [List.getElem?_cons_succ] at hq
          rw [List.getElem?_cons_succ]
          have ha' : areas[(idx + 1) + j']? = some a := by
            rw [show (idx + 1) + j' = idx + (j' + 1) by omega]
            exact ha
          exact ih (idx + 1)
            (by simp only [List.length_cons] at hb ⊢; omega) j' hq ha'

theorem totalQuestions_cons (sec : AnswerSection) (rest : List AnswerSection) :
    totalQuestions (sec :: rest) = sec.questions.length + totalQuestions rest := by
  simp [totalQuestions]

theorem flatIndex_zero (secs : List AnswerSection) (j : Nat) :
    flatIndex secs 0 j = j := by
  simp [flatIndex]

theorem flatIndex_succ (sec : AnswerSection) (rest : List AnswerSection)
    (s j : Nat) :
    flatIndex (sec :: rest) (s + 1) j =
      sec.questions.length + flatIndex rest s j := by
  simp [flatIndex]
  omega

theorem flatIndex_lt (secs : List AnswerSection) (s j : Nat)
    (sec : AnswerSection) (q : SAQuestion) (hsec : secs[s]? = some sec)
    (hq : sec.questions[j]? = some q) :
    flatIndex secs s j < totalQuestions secs := by
  induction secs generalizing s with
  | nil => cases hsec
  | cons sec0 rest ih =>
      cases s with
      | zero =>
          rw [List.getElem?_cons_zero] at hsec
          cases hsec
          rw [flatIndex_zero, totalQuestions_cons]
          have hj : j < sec.questions.length := by
            by_contra hcon
            rw [List.getElem?_eq_none (by omega)] at hq
            cases hq
          omega
      | succ s' =>
          rw [List.getElem?_cons_succ] at hsec
          rw [flatIndex_succ, totalQuestions_cons]
          have := ih s' hsec
          omega

theorem assignSeqSections_get (areas : List Area) (secs : List AnswerSection)
    (idx : Nat) (hb : idx + totalQuestions secs ≤ areas.length)
    (s j : Nat) (sec : AnswerSection) (q : SAQuestion)
    (hsec : secs[s]? = some sec) (hq : sec.questions[j]? = some q)
    (a : Area) (ha : areas[idx + flatIndex secs s j]? = some a) :
    ((assignSeqSections areas idx secs).1[s]?).bind
        (fun sec' => sec'.questions[j]?) =
      some { q with positions := some (posOfArea a) } := by
  induction secs generalizing idx s with
  | nil => cases hsec
  | cons sec0 rest ih =>
      rw [totalQuestions_cons] at hb
      have hb0 : idx + sec0.questions.length ≤ areas.length := by omega
      unfold assignSeqSections
      dsimp only
      cases s with
      | zero =>
          rw [List.getElem?_cons_zero] at hsec
          cases hsec
          rw [List.getElem?_cons_zero]
          dsimp only [Option.bind]
          rw [flatIndex_zero] at ha
          exact assignSeqQs_get areas sec.questions idx hb0 j q hq a ha
      | succ s' =>
          rw [List.getElem?_cons_succ] at hsec
          rw [List.getElem?_cons_succ]
          rw [flatIndex_succ] at ha
          have hsnd := assignSeqQs_snd areas sec0.questions idx hb0
          rw [hsnd]
          have ha' : areas[(idx + sec0.questions.length) + flatIndex rest s' j]? =
              some a := by
            rw [show (idx + sec0.questions.length) + flatIndex rest s' j =
              idx + (sec0.questions.length + flatIndex rest s' j) by omega]
            exact ha
          exact ih (idx + sec0.questions.length) (by omega) s' hsec ha'

theorem tableHasType_false_lookup (tbl : List ((String × String) × QPositions))
    (t n : String) (h : tableHasType tbl t = false) :
    tableLookupLast tbl (t, n) = none := by
  unfold tableLookupLast
  have hfil : tbl.filter (fun e => e.1 == (t, n)) = [] := by
    rw [List.filter_eq_nil_iff]
    intro e he hbeq
    unfold tableHasType at h
    rw [List.any_eq_false] at h
    apply h e he
    have : e.1 = (t, n) := by simpa using hbeq
    simp [this]
  rw [hfil]
  rfl

theorem fbQuestions_get (tbl : List ((String × String) × QPositions)) (t : String)
    (i : Nat) (qs : List SAQuestion) (j : Nat) (q : SAQuestion)
    (hq : qs[j]? = some q) :
    (fbQuestions tbl t i qs)[j]? =
      some (match tableLookupLast tbl (t, toString (i + j + 1)) with
        | some p => { q with positions := some p }
        | none => q) := by
  induction qs generalizing i j with
  | nil => cases hq
  | cons q0 rest ih =>
      unfold fbQuestions
      dsimp only
      cases j with
      | zero =>
          rw [List.getElem?_cons_zero] at hq
          cases hq
          rw [List.getElem?_cons_zero]
          by_cases hty : tableHasType tbl t = true
          · rw [if_pos hty]
          · rw [if_neg hty]
            rw [tableHasType_false_lookup tbl t _
              (by simpa using hty)]
      | succ j' =>
          rw [List.getElem?_cons_succ] at hq
          rw [List.getElem?_cons_succ]
          have := ih (i + 1) j' hq
          rw [show (i + 1) + j' + 1 = i + (j' + 1) + 1 by omega] at this
          exact this

theorem fbSections_get (tbl : List ((String × String) × QPositions))
    (secs : List AnswerSection) (s : Nat) (sec : AnswerSection)
    (hsec : secs[s]? = some sec) :
    (fbSections tbl secs)[s]? =
      some { sec with questions := fbQuestions tbl sec.type 0 sec.questions } := by
  unfold fbSections
  rw [List.getElem?_map, hsec]
  rfl

/-- C7 counterexample: two sections of the same type ("choice"), one
question each, and a single detected area keyed `("choice", "1")`
(counts differ, so the fallback runs).  The code keys the fallback by
the 1-based position within each SECTION, so BOTH questions receive the
area's positions; under the claim's key — 1-based position within its
TYPE — the second question has position 2 and must stay untouched. -/
theorem save_positions_fallback_counterexample :
    ((savePositionsOne [aCh] saTwoChoiceSections).sections[1]?).bind
        (fun sec => sec.questions[0]?) =
      some ⟨"d1", some (posOfArea aCh)⟩ ∧
    ((fallbackSpecSections [aCh] saTwoChoiceSections.sections)[1]?).bind
        (fun sec => sec.questions[0]?) = some ⟨"d1", none⟩ ∧
    (⟨"d1", some (posOfArea aCh)⟩ : SAQuestion) ≠ ⟨"d1", none⟩ := by
  refine ⟨rfl, rfl, by decide⟩

/-- C7 amended: if the number of detected areas equals the total number
of questions (summed in section order, then per-section question
order), area `i` is assigned to the `i`-th question in that flattened
order, for every `i`; if the counts differ, each question is instead
assigned the last detected area whose key `(question_type,
question_number)` equals (its section's type, its 1-based position
within its SECTION — not within its type), remaining untouched when no
area matches; both paths are total (no exception). -/
theorem save_positions_characterization (areas : List Area) (sa : StudentAnswer)
    (s j : Nat) (sec : AnswerSection) (q : SAQuestion)
    (hsec : sa.sections[s]? = some sec) (hq : sec.questions[j]? = some q) :
    (areas.length = totalQuestions sa.sections →
      ∃ a : Area, areas[flatIndex sa.sections s j]? = some a ∧
        (((savePositionsOne areas sa).sections[s]?).bind
            (fun sec' => sec'.questions[j]?)) =
          some { q with positions := some (posOfArea a) }) ∧
    (areas.length ≠ totalQuestions sa.sections →
      (((savePositionsOne areas sa).sections[s]?).bind
          (fun sec' => sec'.questions[j]?)) =
        some (match tableLookupLast (posKeyTable areas)
            (sec.type, toString (j + 1)) with
          | some p => { q with positions := some p }
          | none => q)) := by
  constructor
  · intro hlen
    have hflt := flatIndex_lt sa.sections s j sec q hsec hq
    have hlt : flatIndex sa.sections s j < areas.length := by omega
    refine ⟨areas.get ⟨flatIndex sa.sections s j, hlt⟩, ?_, ?_⟩
    · rw [List.getElem?_eq_getElem hlt]
      rfl
    · unfold savePositionsOne
      rw [if_pos hlen]
      dsimp only
      refine assignSeqSections_get areas sa.sections 0 (by omega) s j sec q hsec hq
        _ ?_
      rw [Nat.zero_add, List.getElem?_eq_getElem hlt]
      rfl
  · intro hlen
    unfold savePositionsOne
    rw [if_neg hlen]
    dsimp only
    rw [fbSections_get _ _ _ _ hsec]
    dsimp only [Option.bind]
    have hfb := fbQuestions_get (posKeyTable areas) sec.type 0 sec.questions j q hq
    rw [show (0 : Nat) + j + 1 = j + 1 by omega] at hfb
    exact hfb

/-- Witness for C7's primary path: four areas, four questions (two
choice then two calculation); question (1,1) receives area 3. -/
theorem save_positions_characterization_witness :
    ∃ a : Area, areasFour[flatIndex saFourQuestions.sections 1 1]? = some a ∧
      (((savePositionsOne areasFour saFourQuestions).sections[1]?).bind
          (fun sec' => sec'.questions[1]?)) =
        some { (⟨"q4", none⟩ : SAQuestion) with positions := some (posOfArea a) } :=
  (save_positions_characterization areasFour saFourQuestions 1 1
    ⟨"calculation", [⟨"q3", none⟩, ⟨"q4", none⟩]⟩ ⟨"q4", none⟩ rfl rfl).1 (by decide)
